/-
Verification of the mesquitte MQTT broker core against its specification.

Shallow embedding of the relevant parts of the repository:
  - src/mesquitte-core/src/types/publish.rs        (PublishMessage, OutgoingPublishPacket, IncomingPublishPacket)
  - src/mesquitte-core/src/store/memory/queue.rs   (MemoryQueue and the Queue operations)
  - src/mesquitte-core/src/protocols/v4/read_write_loop.rs (receive_outgoing, write_to_client)
  - src/mesquitte-core/src/protocols/v4/subscribe.rs (handle_subscribe)

Conventions of the embedding:
  - Rust u16/u64 values are modelled as Nat (all arithmetic involved is
    addition/comparison, which cannot overflow in practice for timestamps
    and queue lengths; packet-id wrap-around is modelled explicitly where
    the spec describes it).
  - `get_unix_ts()` (a read of the system clock) is modelled by passing the
    current time `now : Nat` (seconds) as an explicit argument to each
    operation that calls it.
  - `hashbrown::HashMap` keyed by client id is modelled as an association
    list `List (String × α)`; `VecDeque` as `List`.
  - `Mutex` locking and `shrink_queue` (a capacity-only operation with no
    observable effect on contents) have no counterpart in the model.
  - Fallible signatures `Result<T, ()>` whose bodies never construct `Err`
    are modelled by `T`.
  - Channel sends and calls into the global state are modelled as explicit
    effect fields in the result record of the function that performs them.
-/
import Mathlib

namespace Mesquitte

/-! ## Basic protocol data (mqtt_codec_kit common types) -/

/-- QoS levels of mqtt_codec_kit (`QualityOfService`), ordered Level0 < Level1 < Level2. -/
inductive QualityOfService where
  | Level0
  | Level1
  | Level2
deriving DecidableEq, Repr

def QualityOfService.toNat : QualityOfService → Nat
  | .Level0 => 0
  | .Level1 => 1
  | .Level2 => 2

/-- Model of `cmp::min` on `QualityOfService` under the derived order Level0 < Level1 < Level2. -/
def minQos (a b : QualityOfService) : QualityOfService :=
  if a.toNat ≤ b.toNat then a else b

/-- SUBACK return codes of mqtt_codec_kit v4 (`SubscribeReturnCode`). -/
inductive SubscribeReturnCode where
  | maximumQoSLevel0
  | maximumQoSLevel1
  | maximumQoSLevel2
  | failure
deriving DecidableEq, Repr

/-- Model of `impl From<QualityOfService> for SubscribeReturnCode`. -/
def qosToReturnCode : QualityOfService → SubscribeReturnCode
  | .Level0 => .maximumQoSLevel0
  | .Level1 => .maximumQoSLevel1
  | .Level2 => .maximumQoSLevel2

/-- Model of `TopicFilter::is_shared` of mqtt_codec_kit: a shared subscription filter
starts with `$share/`. The codec crate is external to the repository; this
mirrors the spec's description of shared filters (`$share/...`). Stated on
the character data so it evaluates by kernel reduction. -/
def filter_is_shared (f : String) : Bool :=
  "$share/".data.isPrefixOf f.data

/-! ## types/publish.rs -/

/-- Model of `PublishMessage` (src/mesquitte-core/src/types/publish.rs). `properties`
(mqtt v5 `PublishProperties`) is irrelevant to every claim and modelled as an
`Option Nat` placeholder. Payload bytes are modelled as `List Nat`. -/
structure PublishMessage where
  topic_name : String
  payload : List Nat
  qos : QualityOfService
  retain : Bool
  dup : Bool
  properties : Option Nat
deriving DecidableEq, Repr

/-- Model of `PublishMessage::set_dup` sets the dup flag to true. -/
def PublishMessage.setDup (m : PublishMessage) : PublishMessage :=
  { m with dup := true }

/-- Model of `OutgoingPublishPacket` (src/mesquitte-core/src/types/publish.rs).
Timestamps are unix seconds. -/
structure OutgoingPublishPacket where
  packet_id : Nat
  subscribe_qos : QualityOfService
  message : PublishMessage
  added_at : Nat
  pubrec_at : Option Nat
  pubcomp_at : Option Nat
deriving DecidableEq, Repr

/-- Model of `OutgoingPublishPacket::new` with `added_at = get_unix_ts()` passed as `now`. -/
def OutgoingPublishPacket.new (packet_id : Nat) (subscribe_qos : QualityOfService)
    (message : PublishMessage) (now : Nat) : OutgoingPublishPacket :=
  { packet_id := packet_id, subscribe_qos := subscribe_qos, message := message,
    added_at := now, pubrec_at := none, pubcomp_at := none }

/-- Model of `IncomingPublishPacket` (src/mesquitte-core/src/types/publish.rs). -/
structure IncomingPublishPacket where
  message : PublishMessage
  packet_id : Nat
  receive_at : Nat
  deliver_at : Option Nat
deriving DecidableEq, Repr

/-- Model of `IncomingPublishPacket::new` with `receive_at = get_unix_ts()` passed as `now`. -/
def IncomingPublishPacket.new (packet_id : Nat) (message : PublishMessage)
    (now : Nat) : IncomingPublishPacket :=
  { message := message, packet_id := packet_id, receive_at := now, deliver_at := none }

/-! ## Association-list model of the hash maps, and first-match list operations -/

/-- Lookup in the association-list model of `HashMap<String, α>`. -/
def alistLookup (k : String) : List (String × α) → Option α
  | [] => none
  | (k', v) :: rest => if k == k' then some v else alistLookup k rest

/-- Model of `HashMap::get_mut` followed by an in-place update computing an extra value:
if the key is absent the map is untouched and the default `false` is produced. -/
def alistModifyGet (k : String) (f : α → α × Bool) : List (String × α) → List (String × α) × Bool
  | [] => ([], false)
  | (k', v) :: rest =>
    if k == k' then ((k', (f v).1) :: rest, (f v).2)
    else
      let r := alistModifyGet k f rest
      ((k', v) :: r.1, r.2)

/-- Model of `HashMap::get_mut` followed by an in-place update (no extra value). -/
def alistModify (k : String) (f : α → α) : List (String × α) → List (String × α)
  | [] => []
  | (k', v) :: rest =>
    if k == k' then (k', f v) :: rest
    else (k', v) :: alistModify k f rest

/-- Model of `HashMap::entry(k).or_insert_with(default)`: insert a default value when absent. -/
def alistInsertIfAbsent (k : String) (dflt : α) (m : List (String × α)) : List (String × α) :=
  match alistLookup k m with
  | some _ => m
  | none => m ++ [(k, dflt)]

/-- Index of the first list element satisfying `pred` (`Iterator::position`). -/
def firstIdx (pred : α → Bool) : List α → Option Nat
  | [] => none
  | x :: xs => if pred x then some 0 else (firstIdx pred xs).map (· + 1)

/-- Replace the first element satisfying `pred` by its image under `f`,
reporting whether a match was found (`position` + indexed mutation). -/
def updateFirst (pred : α → Bool) (f : α → α) : List α → List α × Bool
  | [] => ([], false)
  | x :: xs =>
    if pred x then (f x :: xs, true)
    else
      let r := updateFirst pred f xs
      (x :: r.1, r.2)

/-- Remove the first element satisfying `pred`, reporting whether a match was
found (`position` + `VecDeque::remove`). -/
def removeFirstBy (pred : α → Bool) : List α → List α × Bool
  | [] => ([], false)
  | x :: xs =>
    if pred x then (xs, true)
    else
      let r := removeFirstBy pred xs
      (x :: r.1, r.2)

/-! ## store/memory/queue.rs : MemoryQueue -/

/-- Model of `MemoryQueue` (src/mesquitte-core/src/store/memory/queue.rs). The two
`Mutex<HashMap<...>>` fields are modelled as association lists. -/
structure MemoryQueue where
  max_inflight : Nat
  timeout : Nat
  qos2_packets : List (String × List IncomingPublishPacket)
  outgoing_packets : List (String × List OutgoingPublishPacket)
deriving DecidableEq, Repr

/-- Model of `push_qos2_back`: enter the client's incoming queue (creating it when
absent), return true and leave the queue unchanged when it is full
(`len >= max_inflight`), else append the new packet and return false. -/
def push_qos2_back (q : MemoryQueue) (client_id : String) (packet_id : Nat)
    (message : PublishMessage) (now : Nat) : MemoryQueue × Bool :=
  let m := alistInsertIfAbsent client_id [] q.qos2_packets
  let packets := (alistLookup client_id m).getD []
  if q.max_inflight ≤ packets.length then
    ({ q with qos2_packets := m }, true)
  else
    let m2 := alistModify client_id
      (fun l => l ++ [IncomingPublishPacket.new packet_id message now]) m
    ({ q with qos2_packets := m2 }, false)

/-- Model of `push_outgoing_back`: same fullness semantics on the outgoing queue. -/
def push_outgoing_back (q : MemoryQueue) (client_id : String) (packet_id : Nat)
    (subscribe_qos : QualityOfService) (message : PublishMessage) (now : Nat) :
    MemoryQueue × Bool :=
  let m := alistInsertIfAbsent client_id [] q.outgoing_packets
  let packets := (alistLookup client_id m).getD []
  if q.max_inflight ≤ packets.length then
    ({ q with outgoing_packets := m }, true)
  else
    let m2 := alistModify client_id
      (fun l => l ++ [OutgoingPublishPacket.new packet_id subscribe_qos message now]) m
    ({ q with outgoing_packets := m2 }, false)

/-- The selection predicate of `pubrec`: packet id matches, message qos is
Level2, and neither `pubrec_at` nor `pubcomp_at` is set. -/
def pubrec_matches (target_pid : Nat) (p : OutgoingPublishPacket) : Bool :=
  p.packet_id == target_pid && p.message.qos == QualityOfService.Level2
    && p.pubrec_at.isNone && p.pubcomp_at.isNone

/-- The mutation of `pubrec`: `renew_pubrec_at()` then `set_dup()` on the message. -/
def pubrec_update (now : Nat) (p : OutgoingPublishPacket) : OutgoingPublishPacket :=
  { p with pubrec_at := some now, message := p.message.setDup }

/-- Model of `MemoryQueue::pubrec` (returns `Ok(found)`; `Err` is never constructed). -/
def pubrec (q : MemoryQueue) (client_id : String) (target_pid : Nat) (now : Nat) :
    MemoryQueue × Bool :=
  let r := alistModifyGet client_id
    (updateFirst (pubrec_matches target_pid) (pubrec_update now)) q.outgoing_packets
  ({ q with outgoing_packets := r.1 }, r.2)

/-- The selection predicate of `puback`: packet id matches, message qos is
Level1, and `pubcomp_at` is unset. -/
def puback_matches (target_pid : Nat) (p : OutgoingPublishPacket) : Bool :=
  p.packet_id == target_pid && p.message.qos == QualityOfService.Level1
    && p.pubcomp_at.isNone

/-- The mutation of `puback`: `renew_pubcomp_at()` then `set_dup()` on the message. -/
def puback_update (now : Nat) (p : OutgoingPublishPacket) : OutgoingPublishPacket :=
  { p with pubcomp_at := some now, message := p.message.setDup }

/-- Model of `MemoryQueue::puback`. -/
def puback (q : MemoryQueue) (client_id : String) (target_pid : Nat) (now : Nat) :
    MemoryQueue × Bool :=
  let r := alistModifyGet client_id
    (updateFirst (puback_matches target_pid) (puback_update now)) q.outgoing_packets
  ({ q with outgoing_packets := r.1 }, r.2)

/-- The selection predicate of `pubcomp`: packet id matches, message qos is
Level2, and `pubrec_at` is set. -/
def pubcomp_matches (target_pid : Nat) (p : OutgoingPublishPacket) : Bool :=
  p.packet_id == target_pid && p.message.qos == QualityOfService.Level2
    && p.pubrec_at.isSome

/-- The mutation of `pubcomp`: `renew_pubcomp_at()`. -/
def pubcomp_update (now : Nat) (p : OutgoingPublishPacket) : OutgoingPublishPacket :=
  { p with pubcomp_at := some now }

/-- Model of `MemoryQueue::pubcomp`. -/
def pubcomp (q : MemoryQueue) (client_id : String) (target_pid : Nat) (now : Nat) :
    MemoryQueue × Bool :=
  let r := alistModifyGet client_id
    (updateFirst (pubcomp_matches target_pid) (pubcomp_update now)) q.outgoing_packets
  ({ q with outgoing_packets := r.1 }, r.2)

/-- The removal predicate of `clean_incoming`: already delivered, or
`now >= timeout + receive_at`. -/
def clean_incoming_expired (timeout now : Nat) (p : IncomingPublishPacket) : Bool :=
  p.deliver_at.isSome || decide (timeout + p.receive_at ≤ now)

/-- Model of `MemoryQueue::clean_incoming`: remove at most one expired or delivered
entry from the client's incoming queue (`shrink_queue` is capacity-only and
has no counterpart in the model). -/
def clean_incoming (q : MemoryQueue) (client_id : String) (now : Nat) : MemoryQueue :=
  let r := alistModifyGet client_id
    (removeFirstBy (clean_incoming_expired q.timeout now)) q.qos2_packets
  { q with qos2_packets := r.1 }

/-- The removal predicate of `clean_outgoing`: completed, or
`now >= timeout + pubrec_at.unwrap_or(added_at)`. -/
def clean_outgoing_expired (timeout now : Nat) (p : OutgoingPublishPacket) : Bool :=
  p.pubcomp_at.isSome || decide (timeout + (p.pubrec_at.getD p.added_at) ≤ now)

/-- Model of `MemoryQueue::clean_outgoing`. -/
def clean_outgoing (q : MemoryQueue) (client_id : String) (now : Nat) : MemoryQueue :=
  let r := alistModifyGet client_id
    (removeFirstBy (clean_outgoing_expired q.timeout now)) q.outgoing_packets
  { q with outgoing_packets := r.1 }

/-- The selection predicate of `get_ready_incoming_packets`: not yet delivered
and `now <= timeout + receive_at`. -/
def incoming_ready (timeout now : Nat) (p : IncomingPublishPacket) : Bool :=
  p.deliver_at.isNone && decide (now ≤ timeout + p.receive_at)

/-- Model of `MemoryQueue::get_ready_incoming_packets`: `None` for an unknown client,
otherwise the entries passing `incoming_ready` in queue order. -/
def get_ready_incoming_packets (q : MemoryQueue) (client_id : String) (now : Nat) :
    Option (List IncomingPublishPacket) :=
  (alistLookup client_id q.qos2_packets).map
    (fun queue => queue.filter (incoming_ready q.timeout now))

/-- The selection predicate of `get_unsent_outgoing_packets` as written in the
source: `pubcomp_at` unset, `pubrec_at` unset, and
`now <= timeout + pubrec_at.unwrap_or(added_at)`. -/
def outgoing_unsent (timeout now : Nat) (p : OutgoingPublishPacket) : Bool :=
  p.pubcomp_at.isNone && p.pubrec_at.isNone
    && decide (now ≤ timeout + (p.pubrec_at.getD p.added_at))

/-- Model of `MemoryQueue::get_unsent_outgoing_packets`: `None` for an unknown client,
otherwise the entries passing `outgoing_unsent` in queue order. -/
def get_unsent_outgoing_packets (q : MemoryQueue) (client_id : String) (now : Nat) :
    Option (List OutgoingPublishPacket) :=
  (alistLookup client_id q.outgoing_packets).map
    (fun queue => queue.filter (outgoing_unsent q.timeout now))

/-! ## Session (types/session.rs is not under src/) -/

/-- Modelled from the spec: `Session` lives in
src/mesquitte-core/src/types/session.rs, which is absent from src/. Fields
follow §3 of the specification: client_id, clean_session, keep_alive
(seconds, 0 disables liveness checks), subscriptions, server_packet_id,
last_packet_at, the two independent disconnect flags, and the optional will.
`outgoing_tx` (a channel handle) has no counterpart in the pure model. -/
structure Session where
  client_id : String
  clean_session : Bool
  keep_alive : Nat
  subscriptions : List String
  server_packet_id : Nat
  last_packet_at : Nat
  server_disconnected : Bool
  client_disconnected : Bool
  will : Option PublishMessage
deriving DecidableEq, Repr

/-- Modelled from the spec: §3 — "`server_disconnected`, `client_disconnected`:
independent booleans; 'disconnected' below means either". -/
def Session.disconnected (s : Session) : Bool :=
  s.server_disconnected || s.client_disconnected

/-- Modelled from the spec: §4.A — `subscribe(filter)` records the filter in
the session's subscription set. -/
def Session.subscribe (s : Session) (filter : String) : Session :=
  { s with subscriptions := filter :: s.subscriptions }

/-- Modelled from the spec: §4.A — `incr_server_packet_id` wraps in
1..=65535 (id 0 is reserved); the reference implementation increments
without skipping inflight ids (§9). Returns the updated session and the
allocated id. -/
def Session.incr_server_packet_id (s : Session) : Session × Nat :=
  let next := if 65535 ≤ s.server_packet_id then 1 else s.server_packet_id + 1
  ({ s with server_packet_id := next }, next)

/-! ## Outbound packets (mqtt_codec_kit v4 VariablePacket, restricted to the
constructors the embedded handlers produce) -/

/-- A v4 PUBLISH packet as assembled by the broker for a subscriber. -/
structure PublishPacket where
  topic_name : String
  payload : List Nat
  qos : QualityOfService
  packet_id : Option Nat
  retain : Bool
  dup : Bool
deriving DecidableEq, Repr

/-- Model of `PublishPacket::set_retain`. -/
def PublishPacket.set_retain (p : PublishPacket) (b : Bool) : PublishPacket :=
  { p with retain := b }

/-- The outbound packet kinds produced by the embedded handlers
(`VariablePacket` of mqtt_codec_kit v4, restricted). -/
inductive VariablePacket where
  | disconnect
  | publish (p : PublishPacket)
  | suback (packet_id : Nat) (return_codes : List SubscribeReturnCode)
deriving DecidableEq, Repr

/-- Model of `RetainContent` (src/mesquitte-core/src/store/retain.rs): a retained
message keyed by exact topic name; `properties` modelled as `Option Nat`. -/
structure RetainContent where
  client_id : String
  topic_name : String
  payload : List Nat
  properties : Option Nat
  qos : QualityOfService
deriving DecidableEq, Repr

/-- Model of `impl From<Arc<RetainContent>> for PublishMessage`
(src/mesquitte-core/src/types/publish.rs): retain and dup start false. -/
def retainToMessage (r : RetainContent) : PublishMessage :=
  { topic_name := r.topic_name, payload := r.payload, qos := r.qos,
    retain := false, dup := false, properties := r.properties }

/-- Modelled from the spec: `receive_outgoing_publish` lives in
src/mesquitte-core/src/protocols/v4/publish.rs, which is absent from src/.
§4.E: the delivery qos is `min(granted_qos, message.qos)`; for qos ≥ 1 a
packet id is allocated from the session (§4.A); the outbound PUBLISH carries
the message's topic, payload and flags. -/
def receive_outgoing_publish (s : Session) (subscribe_qos : QualityOfService)
    (message : PublishMessage) : Session × PublishPacket :=
  let final_qos := minQos subscribe_qos message.qos
  if final_qos = QualityOfService.Level0 then
    (s, { topic_name := message.topic_name, payload := message.payload,
          qos := final_qos, packet_id := none,
          retain := message.retain, dup := message.dup })
  else
    let r := s.incr_server_packet_id
    (r.1, { topic_name := message.topic_name, payload := message.payload,
            qos := final_qos, packet_id := some r.2,
            retain := message.retain, dup := message.dup })

/-! ## protocols/v4/read_write_loop.rs : receive_outgoing -/

/-- Model of `Outgoing` (src/mesquitte-core/src/types/outgoing.rs): the messages a
session receives on its outgoing channel. The `Online` sender and the model
of its reply are carried in `ReceiveOutgoingResult`. -/
inductive Outgoing where
  | publish (subscribe_qos : QualityOfService) (packet : PublishMessage)
  | online
  | kick (reason : String)
deriving Repr

/-- Result of `receive_outgoing`: the (possibly mutated) session, the
returned pair `(should_stop, Option<VariablePacket>)`, and the side effects
performed — the `server_packet_id` sent back on the `Online` sender, and the
arguments of the `remove_client` call on the global state, when any. -/
structure ReceiveOutgoingResult where
  session : Session
  should_stop : Bool
  resp : Option VariablePacket
  sent_packet_id : Option Nat
  removed_client : Option (String × List String)
deriving Repr

/-- Model of `receive_outgoing` (src/mesquitte-core/src/protocols/v4/read_write_loop.rs,
lines 128–183). -/
def receive_outgoing (session : Session) (packet : Outgoing) : ReceiveOutgoingResult :=
  match packet with
  | .publish subscribe_qos msg =>
    let r := receive_outgoing_publish session subscribe_qos msg
    { session := r.1, should_stop := false,
      resp := if r.1.disconnected then none else some (VariablePacket.publish r.2),
      sent_packet_id := none, removed_client := none }
  | .online =>
    { session := session, should_stop := true,
      resp := if session.disconnected then none else some VariablePacket.disconnect,
      sent_packet_id := some session.server_packet_id,
      removed_client := some (session.client_id, session.subscriptions) }
  | .kick _reason =>
    if session.disconnected && !session.clean_session then
      { session := session, should_stop := false, resp := none,
        sent_packet_id := none, removed_client := none }
    else
      { session := session, should_stop := true,
        resp := some VariablePacket.disconnect,
        sent_packet_id := none,
        removed_client := some (session.client_id, session.subscriptions) }

/-! ## protocols/v4/read_write_loop.rs : write_to_client keep-alive shape -/

/-- The branches of the `tokio::select!` in `write_to_client`
(src/mesquitte-core/src/protocols/v4/read_write_loop.rs, lines 255–319). -/
inductive WriterBranch where
  | incoming
  | outgoing
  | keepAliveTick
deriving DecidableEq, Repr

/-- The select branches present in the writer loop: the `keep_alive > 0` loop
has the keep-alive tick branch, the `keep_alive = 0` loop does not. -/
def write_to_client_branches (keep_alive : Nat) : List WriterBranch :=
  if 0 < keep_alive then
    [WriterBranch.incoming, WriterBranch.outgoing, WriterBranch.keepAliveTick]
  else
    [WriterBranch.incoming, WriterBranch.outgoing]

/-- Model of `half_interval = Duration::from_millis(keep_alive as u64 * 500)`, in ms. -/
def half_interval_ms (keep_alive : Nat) : Nat :=
  keep_alive * 500

/-- Model of `keep_alive_timeout = half_interval * 3`, in ms. -/
def keep_alive_timeout_ms (keep_alive : Nat) : Nat :=
  half_interval_ms keep_alive * 3

/-- The body of the keep-alive tick branch: the loop breaks when
`last_packet_at.elapsed() > keep_alive_timeout` (elapsed time in ms). -/
def keep_alive_tick_breaks (keep_alive elapsed_ms : Nat) : Bool :=
  decide (keep_alive_timeout_ms keep_alive < elapsed_ms)

/-! ## protocols/v4/subscribe.rs : handle_subscribe -/

/-- Model of `SubscribePacket` of mqtt_codec_kit v4: the packet identifier and the
requested `(topic filter, qos)` pairs in request order. -/
structure SubscribePacket where
  packet_id : Nat
  subscribes : List (String × QualityOfService)
deriving Repr

/-- The retained-message delivery loop inside `handle_subscribe`: for every
retain-table match of an accepted filter, build the outbound PUBLISH through
`receive_outgoing_publish` and force `retain = true`. -/
def retain_loop (granted_qos : QualityOfService) :
    Session → List RetainContent → Session × List VariablePacket
  | session, [] => (session, [])
  | session, msg :: rest =>
    let r := receive_outgoing_publish session granted_qos (retainToMessage msg)
    let packet := r.2.set_retain true
    let rr := retain_loop granted_qos r.1 rest
    (rr.1, VariablePacket.publish packet :: rr.2)

/-- Accumulated result of the subscription loop of `handle_subscribe`: the
mutated session, the SUBACK return codes, the retained PUBLISH packets, and
the `global.subscribe(filter, client_id, granted_qos)` route-table calls. -/
structure SubscribeOut where
  session : Session
  return_codes : List SubscribeReturnCode
  retain_packets : List VariablePacket
  route_subs : List (String × QualityOfService)
deriving Repr

/-- The `for (filter, subscribe_qos) in packet.subscribes()` loop of
`handle_subscribe` (src/mesquitte-core/src/protocols/v4/subscribe.rs):
shared filters get a Failure code and are skipped; every other filter is
granted its requested qos, recorded in the session and the route table, and
its retain-table matches (`retain_matches`) are delivered. -/
def subscribe_loop (retain_matches : String → List RetainContent) :
    Session → List (String × QualityOfService) → SubscribeOut
  | session, [] =>
    { session := session, return_codes := [], retain_packets := [], route_subs := [] }
  | session, (filter, subscribe_qos) :: rest =>
    if filter_is_shared filter then
      let r := subscribe_loop retain_matches session rest
      { r with return_codes := SubscribeReturnCode.failure :: r.return_codes }
    else
      let granted_qos := subscribe_qos
      let s1 := Session.subscribe session filter
      let rl := retain_loop granted_qos s1 (retain_matches filter)
      let r := subscribe_loop retain_matches rl.1 rest
      { r with return_codes := qosToReturnCode granted_qos :: r.return_codes,
               retain_packets := rl.2 ++ r.retain_packets,
               route_subs := (filter, granted_qos) :: r.route_subs }

/-- Model of `handle_subscribe` (src/mesquitte-core/src/protocols/v4/subscribe.rs,
lines 12–55). The retain table of the global state is passed as the match
function `retain_matches`. The emitted queue is the SUBACK pushed in front of
the retained PUBLISHes. -/
def handle_subscribe (session : Session) (packet : SubscribePacket)
    (retain_matches : String → List RetainContent) : Session × List VariablePacket :=
  let r := subscribe_loop retain_matches session packet.subscribes
  (r.session, VariablePacket.suback packet.packet_id r.return_codes :: r.retain_packets)

/-- Projection of a PUBLISH packet to its (topic, payload) pair, used to
state delivery order of retained messages. -/
def packetTopicPayload : VariablePacket → String × List Nat
  | .publish pp => (pp.topic_name, pp.payload)
  | _ => ("", [])

/-! ## Concrete sample data for evaluating the operations -/

/-- A concrete QoS2 publish message. -/
def sampleMessage : PublishMessage :=
  { topic_name := "t", payload := [], qos := QualityOfService.Level2,
    retain := false, dup := false, properties := none }

/-- A concrete completed outgoing entry (pubcomp_at set). -/
def sampleDonePacket : OutgoingPublishPacket :=
  { packet_id := 1, subscribe_qos := QualityOfService.Level2,
    message := sampleMessage, added_at := 0, pubrec_at := none,
    pubcomp_at := some 0 }

/-- A concrete fresh outgoing entry (no acks observed yet). -/
def sampleFreshPacket : OutgoingPublishPacket :=
  { packet_id := 1, subscribe_qos := QualityOfService.Level2,
    message := sampleMessage, added_at := 0, pubrec_at := none,
    pubcomp_at := none }

/-- A store where client "a" holds one completed outgoing entry. -/
def sampleStoreDone : MemoryQueue :=
  { max_inflight := 8, timeout := 5, qos2_packets := [],
    outgoing_packets := [("a", [sampleDonePacket])] }

/-- A store where client "a" holds one fresh outgoing entry. -/
def sampleStoreFresh : MemoryQueue :=
  { max_inflight := 8, timeout := 5, qos2_packets := [],
    outgoing_packets := [("a", [sampleFreshPacket])] }

/-! ## Helper lemmas about the list and map operations -/

theorem updateFirst_of_firstIdx_none {α} (pred : α → Bool) (f : α → α) :
    ∀ l : List α, firstIdx pred l = none → updateFirst pred f l = (l, false) := by
  intro l
  induction l with
  | nil => intro _; rfl
  | cons x xs ih =>
    intro h
    unfold firstIdx at h
    by_cases hp : pred x
    · simp [hp] at h
    · simp only [hp, if_neg, Bool.false_eq_true, if_false, Option.map_eq_none'] at h
      simp [updateFirst, hp, ih h]

theorem updateFirst_of_firstIdx_some {α} (pred : α → Bool) (f : α → α) :
    ∀ (l : List α) (i : Nat), firstIdx pred l = some i →
      ∃ p, l.get? i = some p ∧ pred p = true ∧
        updateFirst pred f l = (l.set i (f p), true) := by
  intro l
  induction l with
  | nil => intro i h; simp [firstIdx] at h
  | cons x xs ih =>
    intro i h
    unfold firstIdx at h
    by_cases hp : pred x
    · simp only [hp, if_true] at h
      obtain rfl : (0 : Nat) = i := Option.some.inj h
      exact ⟨x, rfl, hp, by simp [updateFirst, hp]⟩
    · simp only [hp, Bool.false_eq_true, if_false, Option.map_eq_some'] at h
      obtain ⟨j, hj, hji⟩ := h
      obtain ⟨p, hget, hpred, hupd⟩ := ih j hj
      subst hji
      exact ⟨p, by simpa using hget, hpred, by simp [updateFirst, hp, hupd]⟩

theorem removeFirstBy_of_firstIdx_none {α} (pred : α → Bool) :
    ∀ l : List α, firstIdx pred l = none → removeFirstBy pred l = (l, false) := by
  intro l
  induction l with
  | nil => intro _; rfl
  | cons x xs ih =>
    intro h
    unfold firstIdx at h
    by_cases hp : pred x
    · simp [hp] at h
    · simp only [hp, Bool.false_eq_true, if_false, Option.map_eq_none'] at h
      simp [removeFirstBy, hp, ih h]

theorem removeFirstBy_of_firstIdx_some {α} (pred : α → Bool) :
    ∀ (l : List α) (i : Nat), firstIdx pred l = some i →
      removeFirstBy pred l = (l.take i ++ l.drop (i + 1), true) := by
  intro l
  induction l with
  | nil => intro i h; simp [firstIdx] at h
  | cons x xs ih =>
    intro i h
    unfold firstIdx at h
    by_cases hp : pred x
    · simp only [hp, if_true] at h
      obtain rfl : (0 : Nat) = i := Option.some.inj h
      simp [removeFirstBy, hp]
    · simp only [hp, Bool.false_eq_true, if_false, Option.map_eq_some'] at h
      obtain ⟨j, hj, hji⟩ := h
      subst hji
      simp [removeFirstBy, hp, ih j hj]

theorem alistModifyGet_of_lookup_none {α} (k : String) (f : α → α × Bool) :
    ∀ m : List (String × α), alistLookup k m = none → alistModifyGet k f m = (m, false) := by
  intro m
  induction m with
  | nil => intro _; rfl
  | cons kv rest ih =>
    intro h
    obtain ⟨k', v⟩ := kv
    unfold alistLookup at h
    by_cases hk : k == k'
    · simp [hk] at h
    · simp only [hk, Bool.false_eq_true, if_false] at h
      simp [alistModifyGet, hk, ih h]

theorem alistModifyGet_lookup_self {α} (k : String) (f : α → α × Bool) :
    ∀ (m : List (String × α)) (v : α), alistLookup k m = some v →
      (alistModifyGet k f m).2 = (f v).2 ∧
      alistLookup k (alistModifyGet k f m).1 = some ((f v).1) := by
  intro m
  induction m with
  | nil => intro v h; simp [alistLookup] at h
  | cons kv rest ih =>
    intro v h
    obtain ⟨k', w⟩ := kv
    unfold alistLookup at h
    by_cases hk : k == k'
    · simp only [hk, if_true] at h
      obtain rfl : w = v := Option.some.inj h
      constructor
      · simp [alistModifyGet, hk]
      · simp [alistModifyGet, alistLookup, hk]
    · simp only [hk, Bool.false_eq_true, if_false] at h
      obtain ⟨h2, h3⟩ := ih v h
      constructor
      · simpa [alistModifyGet, hk] using h2
      · simpa [alistModifyGet, alistLookup, hk] using h3

theorem alistModifyGet_lookup_other {α} (k k' : String) (hne : k' ≠ k) (f : α → α × Bool) :
    ∀ m : List (String × α),
      alistLookup k' (alistModifyGet k f m).1 = alistLookup k' m := by
  intro m
  induction m with
  | nil => rfl
  | cons kv rest ih =>
    obtain ⟨k'', v⟩ := kv
    by_cases hk : k == k''
    · have hkeq : k = k'' := by simpa using hk
      by_cases hk2 : k' == k''
      · exact absurd (by simpa using hk2 : k' = k'') (hkeq ▸ hne)
      · simp [alistModifyGet, alistLookup, hk, hk2]
    · simp [alistModifyGet, alistLookup, hk, ih]

theorem alistModifyGet_preserve {α} (k : String) (f : α → α × Bool) :
    ∀ (m : List (String × α)) (v : α), alistLookup k m = some v → (f v).1 = v →
      (alistModifyGet k f m).1 = m := by
  intro m
  induction m with
  | nil => intro v h _; simp [alistLookup] at h
  | cons kv rest ih =>
    intro v h hfv
    obtain ⟨k', w⟩ := kv
    unfold alistLookup at h
    by_cases hk : k == k'
    · simp only [hk, if_true] at h
      obtain rfl : w = v := Option.some.inj h
      simp [alistModifyGet, hk, hfv]
    · simp only [hk, Bool.false_eq_true, if_false] at h
      simp [alistModifyGet, hk, ih v h hfv]

theorem alistModify_lookup_self {α} (k : String) (f : α → α) :
    ∀ m : List (String × α),
      alistLookup k (alistModify k f m) = (alistLookup k m).map f := by
  intro m
  induction m with
  | nil => rfl
  | cons kv rest ih =>
    obtain ⟨k', v⟩ := kv
    by_cases hk : k == k'
    · simp [alistModify, alistLookup, hk]
    · simp [alistModify, alistLookup, hk, ih]

theorem alistLookup_append_of_none {α} (k : String) :
    ∀ m l : List (String × α), alistLookup k m = none →
      alistLookup k (m ++ l) = alistLookup k l := by
  intro m
  induction m with
  | nil => intro l _; rfl
  | cons kv rest ih =>
    intro l h
    obtain ⟨k', v⟩ := kv
    unfold alistLookup at h
    by_cases hk : k == k'
    · simp [hk] at h
    · simp only [hk, Bool.false_eq_true, if_false] at h
      simpa [alistLookup, hk] using ih l h

theorem alistInsertIfAbsent_lookup {α} (k : String) (d : α) (m : List (String × α)) :
    alistLookup k (alistInsertIfAbsent k d m) = some ((alistLookup k m).getD d) := by
  unfold alistInsertIfAbsent
  cases h : alistLookup k m with
  | some v => simp [h]
  | none =>
    rw [alistLookup_append_of_none k m _ h]
    simp [alistLookup, h]

/-- Behaviour of the `position` + mutate pattern over the association-list map,
used by `pubrec`, `puback` and `pubcomp`. -/
theorem alist_updateFirst_spec {α} (c : String) (pred : α → Bool) (upd : α → α)
    (m : List (String × List α)) :
    match alistLookup c m with
    | none => alistModifyGet c (updateFirst pred upd) m = (m, false)
    | some queue =>
      match firstIdx pred queue with
      | none => alistModifyGet c (updateFirst pred upd) m = (m, false)
      | some i =>
        (alistModifyGet c (updateFirst pred upd) m).2 = true ∧
        ∃ p, queue.get? i = some p ∧ pred p = true ∧
          alistLookup c (alistModifyGet c (updateFirst pred upd) m).1
            = some (queue.set i (upd p)) ∧
          ∀ c', c' ≠ c →
            alistLookup c' (alistModifyGet c (updateFirst pred upd) m).1
              = alistLookup c' m := by
  cases h : alistLookup c m with
  | none => exact alistModifyGet_of_lookup_none c _ m h
  | some queue =>
    dsimp only
    cases hi : firstIdx pred queue with
    | none =>
      have hu := updateFirst_of_firstIdx_none pred upd queue hi
      have hp : (alistModifyGet c (updateFirst pred upd) m).1 = m :=
        alistModifyGet_preserve c (updateFirst pred upd) m queue h (by rw [hu])
      have h2 := (alistModifyGet_lookup_self c (updateFirst pred upd) m queue h).1
      have h2' : (alistModifyGet c (updateFirst pred upd) m).2 = false := by rw [h2, hu]
      exact Prod.ext hp h2'
    | some i =>
      obtain ⟨p, hget, hpred, hupd⟩ := updateFirst_of_firstIdx_some pred upd queue i hi
      obtain ⟨h2, h3⟩ := alistModifyGet_lookup_self c (updateFirst pred upd) m queue h
      rw [hupd] at h2 h3
      exact ⟨h2, p, hget, hpred, h3, fun c' hne => alistModifyGet_lookup_other c c' hne _ m⟩

/-- Behaviour of the `position` + remove pattern over the association-list map,
used by `clean_incoming` and `clean_outgoing`. -/
theorem alist_removeFirst_spec {α} (c : String) (pred : α → Bool)
    (m : List (String × List α)) :
    match alistLookup c m with
    | none => (alistModifyGet c (removeFirstBy pred) m).1 = m
    | some queue =>
      match firstIdx pred queue with
      | none => (alistModifyGet c (removeFirstBy pred) m).1 = m
      | some i =>
        alistLookup c (alistModifyGet c (removeFirstBy pred) m).1
          = some (queue.take i ++ queue.drop (i + 1)) ∧
        ∀ c', c' ≠ c →
          alistLookup c' (alistModifyGet c (removeFirstBy pred) m).1
            = alistLookup c' m := by
  cases h : alistLookup c m with
  | none => exact congrArg Prod.fst (alistModifyGet_of_lookup_none c _ m h)
  | some queue =>
    dsimp only
    cases hi : firstIdx pred queue with
    | none =>
      have hu := removeFirstBy_of_firstIdx_none pred queue hi
      exact alistModifyGet_preserve c (removeFirstBy pred) m queue h (by rw [hu])
    | some i =>
      have hu := removeFirstBy_of_firstIdx_some pred queue i hi
      obtain ⟨_, h3⟩ := alistModifyGet_lookup_self c (removeFirstBy pred) m queue h
      rw [hu] at h3
      exact ⟨h3, fun c' hne => alistModifyGet_lookup_other c c' hne _ m⟩

/-- Shared characterization of `pubrec`/`puback`/`pubcomp` in terms of the
store fields, stated on the unfolded operation body. -/
theorem ack_operation_spec (q : MemoryQueue) (c : String)
    (pred : OutgoingPublishPacket → Bool)
    (upd : OutgoingPublishPacket → OutgoingPublishPacket) :
    match alistLookup c q.outgoing_packets with
    | none =>
      ({ q with outgoing_packets := (alistModifyGet c (updateFirst pred upd) q.outgoing_packets).1 },
        (alistModifyGet c (updateFirst pred upd) q.outgoing_packets).2)
        = (q, false)
    | some queue =>
      match firstIdx pred queue with
      | none =>
        ({ q with outgoing_packets := (alistModifyGet c (updateFirst pred upd) q.outgoing_packets).1 },
          (alistModifyGet c (updateFirst pred upd) q.outgoing_packets).2)
          = (q, false)
      | some i =>
        (alistModifyGet c (updateFirst pred upd) q.outgoing_packets).2 = true ∧
        (∀ c', c' ≠ c →
          alistLookup c' (alistModifyGet c (updateFirst pred upd) q.outgoing_packets).1
            = alistLookup c' q.outgoing_packets) ∧
        ∃ p, queue.get? i = some p ∧ pred p = true ∧
          alistLookup c (alistModifyGet c (updateFirst pred upd) q.outgoing_packets).1
            = some (queue.set i (upd p)) := by
  have hs := alist_updateFirst_spec c pred upd q.outgoing_packets
  cases h : alistLookup c q.outgoing_packets with
  | none =>
    rw [h] at hs
    dsimp only at hs ⊢
    rw [hs]
  | some queue =>
    rw [h] at hs
    dsimp only at hs ⊢
    cases hi : firstIdx pred queue with
    | none =>
      rw [hi] at hs
      dsimp only at hs
      rw [hs]
    | some i =>
      rw [hi] at hs
      dsimp only at hs
      obtain ⟨h2, p, hget, hpred, h3, hother⟩ := hs
      exact ⟨h2, hother, p, hget, hpred, h3⟩

/-! ## The claims -/

/-- C2: for every client with an outgoing queue, `get_unsent_outgoing_packets`
returns exactly those entries whose `pubrec_at` is unset, whose `pubcomp_at`
is unset, and for which `now ≤ added_at + timeout`, in queue order; for a
client id with no outgoing queue it returns `none`. -/
theorem c2_get_unsent_outgoing_packets_exact (q : MemoryQueue) (c : String) (now : Nat) :
    get_unsent_outgoing_packets q c now
      = (alistLookup c q.outgoing_packets).map
          (fun queue => queue.filter (fun p =>
            p.pubrec_at.isNone && p.pubcomp_at.isNone
              && decide (now ≤ p.added_at + q.timeout))) := by
  unfold get_unsent_outgoing_packets
  cases h : alistLookup c q.outgoing_packets with
  | none => rfl
  | some queue =>
    dsimp only [Option.map]
    congr 1
    apply List.filter_congr
    intro p _
    simp only [outgoing_unsent]
    cases hp : p.pubrec_at with
    | none =>
      rw [Nat.add_comm p.added_at q.timeout]
      simp [hp]
    | some t => simp [hp]

/-- C4: `push_qos2_back` and `push_outgoing_back` return true iff the client's
corresponding queue already holds at least `max_inflight` entries, leaving the
queue unchanged in that case; otherwise the message is appended at the back
and false is returned. -/
theorem c4_push_back_full_semantics (q : MemoryQueue) (c : String) (pid : Nat)
    (msg : PublishMessage) (sqos : QualityOfService) (now : Nat) :
    ((push_qos2_back q c pid msg now).2
        = decide (q.max_inflight ≤ ((alistLookup c q.qos2_packets).getD []).length)
      ∧ alistLookup c (push_qos2_back q c pid msg now).1.qos2_packets
          = some (if q.max_inflight ≤ ((alistLookup c q.qos2_packets).getD []).length
                  then (alistLookup c q.qos2_packets).getD []
                  else (alistLookup c q.qos2_packets).getD []
                        ++ [IncomingPublishPacket.new pid msg now]))
    ∧ ((push_outgoing_back q c pid sqos msg now).2
        = decide (q.max_inflight ≤ ((alistLookup c q.outgoing_packets).getD []).length)
      ∧ alistLookup c (push_outgoing_back q c pid sqos msg now).1.outgoing_packets
          = some (if q.max_inflight ≤ ((alistLookup c q.outgoing_packets).getD []).length
                  then (alistLookup c q.outgoing_packets).getD []
                  else (alistLookup c q.outgoing_packets).getD []
                        ++ [OutgoingPublishPacket.new pid sqos msg now])) := by
  constructor
  · have hm := alistInsertIfAbsent_lookup c ([] : List IncomingPublishPacket) q.qos2_packets
    by_cases hfull : q.max_inflight ≤ ((alistLookup c q.qos2_packets).getD []).length
    · simp [push_qos2_back, hm, hfull]
    · simp [push_qos2_back, hm, hfull, alistModify_lookup_self]
  · have hm := alistInsertIfAbsent_lookup c ([] : List OutgoingPublishPacket) q.outgoing_packets
    by_cases hfull : q.max_inflight ≤ ((alistLookup c q.outgoing_packets).getD []).length
    · simp [push_outgoing_back, hm, hfull]
    · simp [push_outgoing_back, hm, hfull, alistModify_lookup_self]

/-- C5: `pubrec` locates the first outgoing entry with the given packet id,
message qos Level2, and `pubrec_at`/`pubcomp_at` both unset; if found it sets
that entry's `pubrec_at` to the current time, sets dup on its message, and
returns true; otherwise it returns false (and the store is unchanged). -/
theorem c5_pubrec_first_match (q : MemoryQueue) (c : String) (pid now : Nat) :
    match alistLookup c q.outgoing_packets with
    | none => pubrec q c pid now = (q, false)
    | some queue =>
      match firstIdx (pubrec_matches pid) queue with
      | none => pubrec q c pid now = (q, false)
      | some i =>
        (pubrec q c pid now).2 = true ∧
        ∃ p, queue.get? i = some p ∧ pubrec_matches pid p = true ∧
          alistLookup c (pubrec q c pid now).1.outgoing_packets
            = some (queue.set i (pubrec_update now p)) := by
  have hs := ack_operation_spec q c (pubrec_matches pid) (pubrec_update now)
  cases h : alistLookup c q.outgoing_packets with
  | none =>
    rw [h] at hs
    dsimp only at hs ⊢
    exact hs
  | some queue =>
    rw [h] at hs
    dsimp only at hs ⊢
    cases hi : firstIdx (pubrec_matches pid) queue with
    | none =>
      rw [hi] at hs
      dsimp only at hs
      exact hs
    | some i =>
      rw [hi] at hs
      dsimp only at hs
      obtain ⟨h2, _, p, hget, hpred, h3⟩ := hs
      exact ⟨h2, p, hget, hpred, h3⟩

/-- C7: a single call to `clean_outgoing` removes at most one entry — the
first satisfying `clean_outgoing_expired` (pubcomp_at set, or pubrec_at /
added_at plus the TTL timeout reached) — leaving every other entry and their
relative order unchanged, and the incoming side of the store untouched. -/
theorem c7_clean_outgoing_removes_at_most_one (q : MemoryQueue) (c : String) (now : Nat) :
    match alistLookup c q.outgoing_packets with
    | none => clean_outgoing q c now = q
    | some queue =>
      match firstIdx (clean_outgoing_expired q.timeout now) queue with
      | none => clean_outgoing q c now = q
      | some i =>
        alistLookup c (clean_outgoing q c now).outgoing_packets
          = some (queue.take i ++ queue.drop (i + 1)) ∧
        (∀ c', c' ≠ c →
          alistLookup c' (clean_outgoing q c now).outgoing_packets
            = alistLookup c' q.outgoing_packets) ∧
        (clean_outgoing q c now).qos2_packets = q.qos2_packets := by
  have hs := alist_removeFirst_spec c (clean_outgoing_expired q.timeout now) q.outgoing_packets
  cases h : alistLookup c q.outgoing_packets with
  | none =>
    rw [h] at hs
    dsimp only at hs ⊢
    show { q with outgoing_packets :=
      (alistModifyGet c (removeFirstBy (clean_outgoing_expired q.timeout now)) q.outgoing_packets).1 } = q
    rw [hs]
  | some queue =>
    rw [h] at hs
    dsimp only at hs ⊢
    cases hi : firstIdx (clean_outgoing_expired q.timeout now) queue with
    | none =>
      rw [hi] at hs
      dsimp only at hs
      show { q with outgoing_packets :=
        (alistModifyGet c (removeFirstBy (clean_outgoing_expired q.timeout now)) q.outgoing_packets).1 } = q
      rw [hs]
    | some i =>
      rw [hi] at hs
      dsimp only at hs
      obtain ⟨h3, hother⟩ := hs
      exact ⟨h3, hother, rfl⟩

/-- C9: each of `pubrec`, `puback`, `pubcomp` leaves the entire store
unchanged and returns false when the client has no outgoing queue or no entry
matches its selection predicate; a matching call returns true and mutates
exactly the first selected entry, leaving every other client, the incoming
side, and the configuration untouched. -/
theorem c9_ack_ops_noop_or_single_mutation (q : MemoryQueue) (c : String) (pid now : Nat) :
    (match alistLookup c q.outgoing_packets with
     | none => pubrec q c pid now = (q, false)
     | some queue =>
       match firstIdx (pubrec_matches pid) queue with
       | none => pubrec q c pid now = (q, false)
       | some i =>
         (pubrec q c pid now).2 = true ∧
         (pubrec q c pid now).1.qos2_packets = q.qos2_packets ∧
         (pubrec q c pid now).1.max_inflight = q.max_inflight ∧
         (pubrec q c pid now).1.timeout = q.timeout ∧
         (∀ c', c' ≠ c →
           alistLookup c' (pubrec q c pid now).1.outgoing_packets
             = alistLookup c' q.outgoing_packets) ∧
         ∃ p, queue.get? i = some p ∧
           alistLookup c (pubrec q c pid now).1.outgoing_packets
             = some (queue.set i (pubrec_update now p)))
    ∧ (match alistLookup c q.outgoing_packets with
       | none => puback q c pid now = (q, false)
       | some queue =>
         match firstIdx (puback_matches pid) queue with
         | none => puback q c pid now = (q, false)
         | some i =>
           (puback q c pid now).2 = true ∧
           (puback q c pid now).1.qos2_packets = q.qos2_packets ∧
           (puback q c pid now).1.max_inflight = q.max_inflight ∧
           (puback q c pid now).1.timeout = q.timeout ∧
           (∀ c', c' ≠ c →
             alistLookup c' (puback q c pid now).1.outgoing_packets
               = alistLookup c' q.outgoing_packets) ∧
           ∃ p, queue.get? i = some p ∧
             alistLookup c (puback q c pid now).1.outgoing_packets
               = some (queue.set i (puback_update now p)))
    ∧ (match alistLookup c q.outgoing_packets with
       | none => pubcomp q c pid now = (q, false)
       | some queue =>
         match firstIdx (pubcomp_matches pid) queue with
         | none => pubcomp q c pid now = (q, false)
         | some i =>
           (pubcomp q c pid now).2 = true ∧
           (pubcomp q c pid now).1.qos2_packets = q.qos2_packets ∧
           (pubcomp q c pid now).1.max_inflight = q.max_inflight ∧
           (pubcomp q c pid now).1.timeout = q.timeout ∧
           (∀ c', c' ≠ c →
             alistLookup c' (pubcomp q c pid now).1.outgoing_packets
               = alistLookup c' q.outgoing_packets) ∧
           ∃ p, queue.get? i = some p ∧
             alistLookup c (pubcomp q c pid now).1.outgoing_packets
               = some (queue.set i (pubcomp_update now p))) := by
  refine ⟨?_, ?_, ?_⟩
  · have hs := ack_operation_spec q c (pubrec_matches pid) (pubrec_update now)
    cases h : alistLookup c q.outgoing_packets with
    | none => rw [h] at hs; dsimp only at hs ⊢; exact hs
    | some queue =>
      rw [h] at hs
      dsimp only at hs ⊢
      cases hi : firstIdx (pubrec_matches pid) queue with
      | none => rw [hi] at hs; dsimp only at hs; exact hs
      | some i =>
        rw [hi] at hs
        dsimp only at hs
        obtain ⟨h2, hother, p, hget, _, h3⟩ := hs
        exact ⟨h2, rfl, rfl, rfl, hother, p, hget, h3⟩
  · have hs := ack_operation_spec q c (puback_matches pid) (puback_update now)
    cases h : alistLookup c q.outgoing_packets with
    | none => rw [h] at hs; dsimp only at hs ⊢; exact hs
    | some queue =>
      rw [h] at hs
      dsimp only at hs ⊢
      cases hi : firstIdx (puback_matches pid) queue with
      | none => rw [hi] at hs; dsimp only at hs; exact hs
      | some i =>
        rw [hi] at hs
        dsimp only at hs
        obtain ⟨h2, hother, p, hget, _, h3⟩ := hs
        exact ⟨h2, rfl, rfl, rfl, hother, p, hget, h3⟩
  · have hs := ack_operation_spec q c (pubcomp_matches pid) (pubcomp_update now)
    cases h : alistLookup c q.outgoing_packets with
    | none => rw [h] at hs; dsimp only at hs ⊢; exact hs
    | some queue =>
      rw [h] at hs
      dsimp only at hs ⊢
      cases hi : firstIdx (pubcomp_matches pid) queue with
      | none => rw [hi] at hs; dsimp only at hs; exact hs
      | some i =>
        rw [hi] at hs
        dsimp only at hs
        obtain ⟨h2, hother, p, hget, _, h3⟩ := hs
        exact ⟨h2, rfl, rfl, rfl, hother, p, hget, h3⟩

/-- C10: both TTL comparisons on incoming QoS2 entries are boundary-inclusive.
At the instant `now = timeout + receive_at` an undelivered entry satisfies
both the `get_ready_incoming_packets` condition (`now ≤ timeout + receive_at`)
and the `clean_incoming` removal condition (`now ≥ timeout + receive_at`):
it is simultaneously returned by the former and removed by the latter. -/
theorem c10_incoming_ttl_boundary_inclusive (mi tmo pid recv : Nat) (c : String)
    (msg : PublishMessage) :
    incoming_ready tmo (tmo + recv)
        { message := msg, packet_id := pid, receive_at := recv, deliver_at := none } = true
    ∧ clean_incoming_expired tmo (tmo + recv)
        { message := msg, packet_id := pid, receive_at := recv, deliver_at := none } = true
    ∧ get_ready_incoming_packets
        { max_inflight := mi, timeout := tmo,
          qos2_packets :=
            [(c, [{ message := msg, packet_id := pid, receive_at := recv, deliver_at := none }])],
          outgoing_packets := [] } c (tmo + recv)
        = some [{ message := msg, packet_id := pid, receive_at := recv, deliver_at := none }]
    ∧ alistLookup c (clean_incoming
        { max_inflight := mi, timeout := tmo,
          qos2_packets :=
            [(c, [{ message := msg, packet_id := pid, receive_at := recv, deliver_at := none }])],
          outgoing_packets := [] } c (tmo + recv)).qos2_packets
        = some [] := by
  refine ⟨?_, ?_, ?_, ?_⟩
  · simp [incoming_ready]
  · simp [clean_incoming_expired]
  · simp [get_ready_incoming_packets, alistLookup, incoming_ready]
  · simp [clean_incoming, alistModifyGet, removeFirstBy, clean_incoming_expired, alistLookup]

/-- C1 (amended): when a session handles an `Outgoing::Online` takeover
signal it replies on the provided sender with its current `server_packet_id`,
calls `remove_client` with its client id and subscriptions, signals the loop
to stop, and produces a DISCONNECT packet if and only if the session is not
already disconnected (neither `client_disconnected` nor `server_disconnected`
is set). -/
theorem c1_online_takeover_amended (s : Session) :
    (receive_outgoing s Outgoing.online).sent_packet_id = some s.server_packet_id
    ∧ (receive_outgoing s Outgoing.online).removed_client
        = some (s.client_id, s.subscriptions)
    ∧ (receive_outgoing s Outgoing.online).should_stop = true
    ∧ ((receive_outgoing s Outgoing.online).resp = some VariablePacket.disconnect
        ↔ (s.server_disconnected = false ∧ s.client_disconnected = false)) := by
  refine ⟨rfl, rfl, rfl, ?_⟩
  unfold receive_outgoing Session.disconnected
  by_cases h1 : s.server_disconnected <;> by_cases h2 : s.client_disconnected <;>
    simp [h1, h2]

/-- C1 counterexample: a session where only `server_disconnected` is set is
not client-disconnected, yet the `Online` handler produces no DISCONNECT
packet — refuting "produces a DISCONNECT if and only if the session is not
already client-disconnected". -/
theorem c1_online_takeover_counterexample :
    ({ client_id := "c1", clean_session := false, keep_alive := 60,
       subscriptions := [], server_packet_id := 1, last_packet_at := 0,
       server_disconnected := true, client_disconnected := false,
       will := none } : Session).client_disconnected = false
    ∧ (receive_outgoing
        { client_id := "c1", clean_session := false, keep_alive := 60,
          subscriptions := [], server_packet_id := 1, last_packet_at := 0,
          server_disconnected := true, client_disconnected := false,
          will := none } Outgoing.online).resp = none := by
  constructor
  · rfl
  · simp [receive_outgoing, Session.disconnected]

/-- C3: with `keep_alive = k > 0` the writer loop has the keep-alive tick
branch, the tick period (`half_interval`) is k/2 seconds (in ms,
`2 * half_interval_ms = 1000 * k`), and the tick branch terminates the loop
exactly when the elapsed time since `last_packet_at` exceeds k × 1.5 seconds
(1500·k ms); with `keep_alive = 0` the loop has no keep-alive branch at all,
so it never terminates for inactivity alone. -/
theorem c3_keep_alive_watchdog (k e : Nat) :
    (WriterBranch.keepAliveTick ∈ write_to_client_branches k ↔ 0 < k)
    ∧ 2 * half_interval_ms k = 1000 * k
    ∧ (keep_alive_tick_breaks k e = true ↔ 1500 * k < e)
    ∧ write_to_client_branches 0 = [WriterBranch.incoming, WriterBranch.outgoing] := by
  refine ⟨?_, ?_, ?_, ?_⟩
  · by_cases h : 0 < k <;> simp [write_to_client_branches, h]
  · simp only [half_interval_ms]
    ring
  · simp only [keep_alive_tick_breaks, keep_alive_timeout_ms, half_interval_ms,
      decide_eq_true_eq]
    omega
  · simp [write_to_client_branches]

/-- C8: when a session receives `Outgoing::Kick`, the message is ignored (no
stop, no session change, no packet, no `remove_client`) if and only if the
session is already disconnected and `clean_session` is false; in every other
case the loop is signalled to stop, `remove_client` is called with the
session's client id and subscriptions, and a DISCONNECT packet is produced. -/
theorem c8_kick_semantics (s : Session) (reason : String) :
    if (s.disconnected && !s.clean_session) = true then
      receive_outgoing s (Outgoing.kick reason)
        = { session := s, should_stop := false, resp := none,
            sent_packet_id := none, removed_client := none }
    else
      receive_outgoing s (Outgoing.kick reason)
        = { session := s, should_stop := true,
            resp := some VariablePacket.disconnect,
            sent_packet_id := none,
            removed_client := some (s.client_id, s.subscriptions) } := by
  by_cases h : (s.disconnected && !s.clean_session) = true <;>
    simp [receive_outgoing, h]

/-- The packet built by `receive_outgoing_publish` keeps the message's topic and payload. -/
theorem receive_outgoing_publish_topic_payload (s : Session) (qos : QualityOfService)
    (m : PublishMessage) :
    (receive_outgoing_publish s qos m).2.topic_name = m.topic_name
    ∧ (receive_outgoing_publish s qos m).2.payload = m.payload := by
  unfold receive_outgoing_publish
  by_cases h : minQos qos m.qos = QualityOfService.Level0 <;> simp [h]

/-- The packets built by `retain_loop` are all PUBLISHes with `retain = true`,
and their (topic, payload) projection follows the retained entries in order. -/
theorem retain_loop_packets (granted : QualityOfService) :
    ∀ (ms : List RetainContent) (s : Session),
      (∀ v ∈ (retain_loop granted s ms).2,
        ∃ pp, v = VariablePacket.publish pp ∧ pp.retain = true)
      ∧ (retain_loop granted s ms).2.map packetTopicPayload
          = ms.map (fun m => (m.topic_name, m.payload)) := by
  intro ms
  induction ms with
  | nil => intro s; exact ⟨by simp [retain_loop], by simp [retain_loop]⟩
  | cons m rest ih =>
    intro s
    constructor
    · intro v hv
      simp only [retain_loop, List.mem_cons] at hv
      rcases hv with hv | hv
      · exact ⟨_, hv, rfl⟩
      · exact ((ih _).1) v hv
    · have hproj := receive_outgoing_publish_topic_payload s granted (retainToMessage m)
      simp only [retainToMessage] at hproj
      simp only [retain_loop, List.map_cons]
      refine congrArg₂ List.cons ?_ ((ih _).2)
      simp [packetTopicPayload, PublishPacket.set_retain, retainToMessage,
        hproj.1, hproj.2]

/-- The subscription loop of `handle_subscribe`: return codes follow the
requested pairs in order (Failure for shared filters, the requested qos
otherwise), and the retained packets are PUBLISHes with `retain = true`
following the retain-table matches of the accepted filters in order. -/
theorem subscribe_loop_spec (rm : String → List RetainContent) :
    ∀ (subs : List (String × QualityOfService)) (s : Session),
      (subscribe_loop rm s subs).return_codes
        = subs.map (fun fq =>
            if filter_is_shared fq.1 then SubscribeReturnCode.failure
            else qosToReturnCode fq.2)
      ∧ (∀ v ∈ (subscribe_loop rm s subs).retain_packets,
          ∃ pp, v = VariablePacket.publish pp ∧ pp.retain = true)
      ∧ (subscribe_loop rm s subs).retain_packets.map packetTopicPayload
          = (subs.filter (fun fq => !(filter_is_shared fq.1))).flatMap
              (fun fq => (rm fq.1).map (fun m => (m.topic_name, m.payload))) := by
  intro subs
  induction subs with
  | nil =>
    intro s
    exact ⟨rfl, by simp [subscribe_loop], by simp [subscribe_loop]⟩
  | cons fq rest ih =>
    intro s
    obtain ⟨filter, subscribe_qos⟩ := fq
    by_cases hsh : filter_is_shared filter
    · refine ⟨?_, ?_, ?_⟩
      · simp only [subscribe_loop, hsh, if_true, List.map_cons]
        exact congrArg _ ((ih s).1)
      · intro v hv
        simp only [subscribe_loop, hsh, if_true] at hv
        exact ((ih s).2.1) v hv
      · simp only [subscribe_loop, hsh, if_true, List.filter_cons, Bool.not_true,
          Bool.false_eq_true, if_false]
        exact (ih s).2.2
    · have hrl := retain_loop_packets subscribe_qos (rm filter) (Session.subscribe s filter)
      refine ⟨?_, ?_, ?_⟩
      · simp only [subscribe_loop, hsh, Bool.false_eq_true, if_false, List.map_cons]
        exact congrArg _ ((ih _).1)
      · intro v hv
        simp only [subscribe_loop, hsh, Bool.false_eq_true, if_false,
          List.mem_append] at hv
        rcases hv with hv | hv
        · exact hrl.1 v hv
        · exact ((ih _).2.1) v hv
      · simp only [subscribe_loop, hsh, Bool.false_eq_true, if_false,
          List.filter_cons, Bool.not_false, if_true, List.flatMap_cons,
          List.map_append]
        rw [hrl.2, (ih _).2.2]

/-- C6: `handle_subscribe` returns a packet list whose first element is a
single SUBACK carrying one return code per requested (filter, qos) pair in
request order — Failure for every shared filter and the requested QoS for
every other filter — followed by one retained-message PUBLISH, with retain
set to true, for each retain-table entry matching each accepted filter, in
order. -/
theorem c6_handle_subscribe_output (s : Session) (pkt : SubscribePacket)
    (rm : String → List RetainContent) :
    ((handle_subscribe s pkt rm).2).head?
        = some (VariablePacket.suback pkt.packet_id
            (pkt.subscribes.map (fun fq =>
              if filter_is_shared fq.1 then SubscribeReturnCode.failure
              else qosToReturnCode fq.2)))
    ∧ ((handle_subscribe s pkt rm).2).tail.all
        (fun v => match v with
          | VariablePacket.publish pp => pp.retain
          | _ => false) = true
    ∧ ((handle_subscribe s pkt rm).2).tail.map packetTopicPayload
        = (pkt.subscribes.filter (fun fq => !(filter_is_shared fq.1))).flatMap
            (fun fq => (rm fq.1).map (fun m => (m.topic_name, m.payload))) := by
  obtain ⟨h1, h2, h3⟩ := subscribe_loop_spec rm pkt.subscribes s
  refine ⟨?_, ?_, ?_⟩
  · simp [handle_subscribe, h1]
  · simp only [handle_subscribe, List.tail_cons, List.all_eq_true]
    intro v hv
    obtain ⟨pp, rfl, hr⟩ := h2 v hv
    simpa using hr
  · simpa only [handle_subscribe, List.tail_cons] using h3

/-- Witness for C7: on a concrete store holding one completed entry for
client "a", `clean_outgoing` removes it and leaves other clients untouched. -/
theorem c7_clean_outgoing_witness :
    alistLookup "a" (clean_outgoing sampleStoreDone "a" 0).outgoing_packets = some []
    ∧ alistLookup "b" (clean_outgoing sampleStoreDone "a" 0).outgoing_packets
        = alistLookup "b" sampleStoreDone.outgoing_packets := by
  have h := c7_clean_outgoing_removes_at_most_one sampleStoreDone "a" 0
  exact ⟨h.1, h.2.1 "b" (by decide)⟩

/-- Witness for C9: on a concrete store holding one fresh QoS2 entry for
client "a", `pubrec` reports a match and leaves other clients untouched. -/
theorem c9_ack_ops_witness :
    (pubrec sampleStoreFresh "a" 1 9).2 = true
    ∧ alistLookup "b" (pubrec sampleStoreFresh "a" 1 9).1.outgoing_packets
        = alistLookup "b" sampleStoreFresh.outgoing_packets := by
  have h := (c9_ack_ops_noop_or_single_mutation sampleStoreFresh "a" 1 9).1
  exact ⟨h.1, h.2.2.2.2.1 "b" (by decide)⟩

end Mesquitte
